import Mathlib

/-!
Verification of the DMARC aggregate-report ingestion pipeline
(`dmarc_parser.py`) against its natural-language specification.

The Python source is shallowly embedded: XML documents become a tree type,
BeautifulSoup's recursive-descendant `find` / `find_all` become functions
over that tree, Python exceptions (`AttributeError` from attribute access
on `None`, `assert` failures, `int()` conversion errors, corrupt-archive
errors) become an `Except` error type, the global reverse-DNS cache
becomes explicit state threading, and the persistence collaborator
becomes an abstract store interface.
-/

set_option autoImplicit false

namespace DmarcMon

/-- Python exception kinds raised by the decoding pipeline. -/
inductive PyError where
  | attributeError
  | assertError
  | valueError
  | archiveError
  | unpicklingError
  deriving DecidableEq, Repr

mutual
/-- An XML element: tag name, text content, child elements.  Models the
BeautifulSoup tags that `dmarc_parser.py` navigates.  (A mutual inductive
is used instead of `List XmlElem` children so that the recursive
descendant search below is compiled structurally.) -/
inductive XmlElem : Type where
  | mk : String → String → XmlList → XmlElem

/-- A sequence of sibling XML elements. -/
inductive XmlList : Type where
  | nil : XmlList
  | cons : XmlElem → XmlList → XmlList
end

/-- Tag name of an element. -/
def XmlElem.name : XmlElem → String
  | .mk n _ _ => n

/-- Text content of an element (models bs4 `.text` for the leaf tags the
parser reads). -/
def XmlElem.text : XmlElem → String
  | .mk _ t _ => t

/-- Child elements. -/
def XmlElem.children : XmlElem → XmlList
  | .mk _ _ c => c

/-- Convenience constructor for sibling sequences. -/
def XmlList.ofList : List XmlElem → XmlList
  | [] => .nil
  | e :: es => .cons e (XmlList.ofList es)

mutual
/-- bs4 `tag.find_all(nm)`: every descendant of `e` named `nm`, in
document order (an element precedes its own descendants). -/
def findAllE (nm : String) : XmlElem → List XmlElem
  | .mk _ _ cs => findAllL nm cs

/-- Version of `find_all` over a sibling sequence. -/
def findAllL (nm : String) : XmlList → List XmlElem
  | .nil => []
  | .cons (XmlElem.mk n t grand) cs =>
      (if n = nm then [XmlElem.mk n t grand] else [])
        ++ findAllL nm grand ++ findAllL nm cs
end

/-- bs4 attribute access / `find(nm)`: the first descendant named `nm`,
or `none`. -/
def find? (nm : String) (e : XmlElem) : Option XmlElem :=
  (findAllE nm e).head?

/-- Accessing `.text` (or a further attribute) on the result of a tag
lookup: Python raises `AttributeError` when the lookup returned `None`. -/
def attrOf : Option XmlElem → Except PyError XmlElem
  | some e => .ok e
  | none => .error .attributeError

/-- One `auth_results/spf` entry: domain and result strings
(`dmarc_parser.py` lines 49-52). -/
structure SpfAuthResult where
  domain : String
  result : String
  deriving DecidableEq, Repr

/-- One `auth_results/dkim` entry kept in `dkim_signatures`
(`dmarc_parser.py` lines 57-63). -/
structure DkimSignature where
  result : String
  domain : String
  selector : Option String
  human_result : Option String
  deriving DecidableEq, Repr

/-- The `DMARCRecord` entity built per `record` element. -/
structure DMARCRecord where
  ip : String
  host : Option String
  disposition : String
  reason : Option String
  spf_pass : Option Bool
  dkim_pass : Option Bool
  header_from : Option String
  envelope_from : Option String
  count : Int
  spf_results : List SpfAuthResult
  dkim_signatures : List DkimSignature
  deriving DecidableEq, Repr

/-- Parse a run of decimal digits (most significant first) onto an
accumulator; `none` on any non-digit. -/
def readDigits : List Char → Nat → Option Nat
  | [], acc => some acc
  | c :: cs, acc =>
      if '0' ≤ c ∧ c ≤ '9' then readDigits cs (acc * 10 + (c.toNat - '0'.toNat))
      else none

/-- Python `int(str)` on the integer strings DMARC reports carry: an
optional sign followed by at least one digit (the whitespace and
underscore forms Python also tolerates do not occur here and are
omitted); `none` models the `ValueError` Python raises otherwise. -/
def pyInt? (s : String) : Option Int :=
  match s.data with
  | [] => none
  | '-' :: cs =>
      (match cs with
       | [] => none
       | _ => (readDigits cs 0).map (fun n => -(n : Int)))
  | '+' :: cs =>
      (match cs with
       | [] => none
       | _ => (readDigits cs 0).map (fun n => (n : Int)))
  | cs => (readDigits cs 0).map (fun n => (n : Int))

/-- Lines 28-32 of the source: `spf_pass` starts as `None`; if
`policy_evaluated.spf` is present its text must be `pass` or `fail`
(otherwise `assert` fails), and the flag becomes `text == "pass"`. -/
def spfPassOf (pe : XmlElem) : Except PyError (Option Bool) :=
  match find? "spf" pe with
  | none => .ok none
  | some s =>
      if s.text = "pass" ∨ s.text = "fail" then .ok (some (s.text == "pass"))
      else .error .assertError

/-- Lines 29, 33-38 of the source: like SPF but an absent
`policy_evaluated.dkim` is sanitised to `False` instead of `None`. -/
def dkimPassOf (pe : XmlElem) : Except PyError (Option Bool) :=
  match find? "dkim" pe with
  | none => .ok (some false)
  | some d =>
      if d.text = "pass" ∨ d.text = "fail" then .ok (some (d.text == "pass"))
      else .error .assertError

/-- Lines 39-40: `policy_evaluated.reason.type` text when both `reason`
and its `type` child exist, else `None`. -/
def reasonOf (pe : XmlElem) : Option String :=
  match find? "reason" pe with
  | none => none
  | some r =>
      match find? "type" r with
      | none => none
      | some t => some t.text

/-- Lines 49-52: build one SPF auth result; `result` and `domain` texts
are read unconditionally (`AttributeError` when a tag is missing). -/
def mkSpfResult (e : XmlElem) : Except PyError SpfAuthResult :=
  match attrOf (find? "result" e) with
  | .error err => .error err
  | .ok r =>
      match attrOf (find? "domain" e) with
      | .error err => .error err
      | .ok d => .ok ⟨d.text, r.text⟩

/-- The loop over `auth_results.find_all("spf")`. -/
def mkSpfResults : List XmlElem → Except PyError (List SpfAuthResult)
  | [] => .ok []
  | e :: es =>
      match mkSpfResult e with
      | .error err => .error err
      | .ok r =>
          match mkSpfResults es with
          | .error err => .error err
          | .ok rest => .ok (r :: rest)

/-- Lines 57-63: the loop over `auth_results.find_all("dkim")`.  Each
entry's `result` and `domain` are required; `selector` and
`human_result` are optional.  The entry is appended only when
`_result not in ["none", "neutral"] and _domain != "not.evaluated"`. -/
def mkDkimSigs : List XmlElem → Except PyError (List DkimSignature)
  | [] => .ok []
  | e :: es =>
      match attrOf (find? "result" e) with
      | .error err => .error err
      | .ok r =>
          match attrOf (find? "domain" e) with
          | .error err => .error err
          | .ok d =>
              let sel := (find? "selector" e).map XmlElem.text
              let hr := (find? "human_result" e).map XmlElem.text
              match mkDkimSigs es with
              | .error err => .error err
              | .ok rest =>
                  if ¬(r.text = "none" ∨ r.text = "neutral") ∧ d.text ≠ "not.evaluated"
                  then .ok (⟨r.text, d.text, sel, hr⟩ :: rest)
                  else .ok rest

/-- Source `DMARCRecord.__init__` (lines 20-63), with the reverse-DNS lookup
abstracted to a pure `lookup` function (its stateful behaviour is
modelled separately by `lookupIp`). -/
def mkRecord (lookup : String → Option String) (record_xml : XmlElem) :
    Except PyError DMARCRecord :=
  match attrOf (find? "source_ip" record_xml) with
  | .error err => .error err
  | .ok sip =>
    let ip := sip.text
    let host := lookup ip
    match attrOf (find? "row" record_xml) with
    | .error err => .error err
    | .ok row =>
      match attrOf (find? "policy_evaluated" row) with
      | .error err => .error err
      | .ok pe =>
        match attrOf (find? "disposition" pe) with
        | .error err => .error err
        | .ok disp =>
          match spfPassOf pe with
          | .error err => .error err
          | .ok spfP =>
            match dkimPassOf pe with
            | .error err => .error err
            | .ok dkimP =>
              let reason := reasonOf pe
              match attrOf (find? "identifiers" record_xml) with
              | .error err => .error err
              | .ok idents =>
                let header_from := (find? "header_from" idents).map XmlElem.text
                let envelope_from := (find? "envelope_from" idents).map XmlElem.text
                match attrOf (find? "count" record_xml) with
                | .error err => .error err
                | .ok cnt =>
                  match pyInt? cnt.text with
                  | none => .error .valueError
                  | some count =>
                    match attrOf (find? "auth_results" record_xml) with
                    | .error err => .error err
                    | .ok ar =>
                      match mkSpfResults (findAllE "spf" ar) with
                      | .error err => .error err
                      | .ok spf_results =>
                        match mkDkimSigs (findAllE "dkim" ar) with
                        | .error err => .error err
                        | .ok dkim_signatures =>
                          .ok ⟨ip, host, disp.text, reason, spfP, dkimP,
                               header_from, envelope_from, count,
                               spf_results, dkim_signatures⟩

/-! ### The Report entity and `_process_xml` -/

/-- The `DMARCReport` entity (lines 66-78); dates are kept as the Unix
timestamps parsed by `int(...)` before `utcfromtimestamp`. -/
structure DMARCReport where
  id : String
  filename : String
  receiver : String
  start_date : Int
  end_date : Int
  records : List DMARCRecord
  deriving DecidableEq, Repr

/-- Python `int(...)` on element text: `ValueError` when not an integer. -/
def toIntE (s : String) : Except PyError Int :=
  match pyInt? s with
  | some n => .ok n
  | none => .error .valueError

/-- The record loop of `_process_xml` (lines 101-104). -/
def mkRecords (lookup : String → Option String) :
    List XmlElem → Except PyError (List DMARCRecord)
  | [] => .ok []
  | x :: xs =>
      match mkRecord lookup x with
      | .error err => .error err
      | .ok r =>
          match mkRecords lookup xs with
          | .error err => .error err
          | .ok rs => .ok (r :: rs)

/-- Source `_process_xml` + `DMARCReport.__init__` (lines 66-75, 96-105): build
the report from `report_metadata`, then decode every `record` element
found anywhere in the document, in document order. -/
def processXml (lookup : String → Option String) (doc : XmlElem)
    (report_filename : String) : Except PyError DMARCReport :=
  match attrOf (find? "report_metadata" doc) with
  | .error err => .error err
  | .ok md =>
    match attrOf (find? "report_id" md) with
    | .error err => .error err
    | .ok rid =>
      match attrOf (find? "org_name" md) with
      | .error err => .error err
      | .ok org =>
        match attrOf (find? "date_range" md) with
        | .error err => .error err
        | .ok dr =>
          match attrOf (find? "begin" dr) with
          | .error err => .error err
          | .ok b =>
            match attrOf (find? "end" dr) with
            | .error err => .error err
            | .ok en =>
              match toIntE b.text with
              | .error err => .error err
              | .ok bi =>
                match toIntE en.text with
                | .error err => .error err
                | .ok ei =>
                  match mkRecords lookup (findAllE "record" doc) with
                  | .error err => .error err
                  | .ok recs =>
                    .ok ⟨rid.text, report_filename, org.text, bi, ei, recs⟩

/-! ### Path / filename helpers -/

/-- Python `fname.split("/")[-1]`: everything after the last slash. -/
def lastComp (s : List Char) : List Char :=
  (s.reverse.takeWhile (fun c => c != '/')).reverse

/-- String wrapper of `lastComp`. -/
def lastComponentS (s : String) : String := ⟨lastComp s.data⟩

/-- Python `str.endswith(pat)`. -/
def endsWithL (s pat : List Char) : Bool :=
  decide (List.drop (s.length - pat.length) s = pat)

/-- String wrapper of `endsWithL`. -/
def endsWithSfx (s pat : String) : Bool := endsWithL s.data pat.data

/-- Python `str.replace(".gz", "")` (line 121): removes every
non-overlapping occurrence of `".gz"`, scanning left to right — not only
a trailing suffix. -/
def stripGzAll : List Char → List Char
  | '.' :: 'g' :: 'z' :: rest => stripGzAll rest
  | c :: rest => c :: stripGzAll rest
  | [] => []

/-- String wrapper of `stripGzAll`. -/
def stripGzAllS (s : String) : String := ⟨stripGzAll s.data⟩

/-- Modelled from the spec: "the archive filename with the `.gz` suffix
stripped" — removes one trailing `".gz"` only.  Used to compare the
spec's wording with the source's `replace(".gz", "")`. -/
def stripSuffixGz (s : String) : String :=
  if endsWithL s.data ".gz".data then ⟨s.data.take (s.data.length - 3)⟩ else s

/-! ### Archive extraction -/

/-- Content of a file on disk, as the extractor sees it: a zip container
with named entries (each entry's bytes already parsed by BeautifulSoup,
which accepts any input), a gzip file with a single document, or a
corrupt / unreadable file. -/
inductive FileContent where
  | zipF : List (String × XmlElem) → FileContent
  | gzF : XmlElem → FileContent
  | corrupt : FileContent

/-- The loop over `archive.namelist()` in `_process_zipfile`
(lines 111-115): the first entry ending in `".xml"` is processed; if
none matches the function falls through returning `None`. -/
def firstXmlEntry (lookup : String → Option String) (archive_name : String) :
    List (String × XmlElem) → Except PyError (Option DMARCReport)
  | [] => .ok none
  | (subname, doc) :: rest =>
      if endsWithSfx subname ".xml" then
        match processXml lookup doc archive_name with
        | .error err => .error err
        | .ok rep => .ok (some rep)
      else firstXmlEntry lookup archive_name rest

/-- Source `_process_zipfile` (lines 108-115).  A missing or non-zip file makes
`zipfile.ZipFile` raise, modelled as an archive error. -/
def processZipfile (lookup : String → Option String)
    (fsys : String → Option FileContent) (fname : String) :
    Except PyError (Option DMARCReport) :=
  let archive_name := lastComponentS fname
  match fsys fname with
  | some (.zipF entries) => firstXmlEntry lookup archive_name entries
  | _ => .error .archiveError

/-- Source `_process_gzfile` (lines 118-124): the embedded name is
`archive_name.replace(".gz", "")`; only if it ends in `".xml"` is the
gzip opened and processed, otherwise the function returns `None`. -/
def processGzfile (lookup : String → Option String)
    (fsys : String → Option FileContent) (fname : String) :
    Except PyError (Option DMARCReport) :=
  let archive_name := lastComponentS fname
  let subfile_name := stripGzAllS archive_name
  if endsWithSfx subfile_name ".xml" then
    match fsys fname with
    | some (.gzF doc) =>
        match processXml lookup doc archive_name with
        | .error err => .error err
        | .ok rep => .ok (some rep)
    | _ => .error .archiveError
  else .ok none

/-! ### Ingestion driver -/

/-- Modelled from the spec: the persistence collaborator (`DMARCStorage`
from `dmarc_storage`, which is not under `src/`) exposing
`report_already_exists(filename)` and `save_new_report(report)` over an
abstract store state `σ`. -/
structure StoreOps (σ : Type) where
  report_already_exists : σ → String → Bool
  save_new_report : σ → DMARCReport → σ

/-- Source `parse_report` (lines 127-138): dispatch on the file extension, save
a resulting report.  Decode and archive errors are not caught and
propagate to the caller. -/
def parse_report {σ : Type} (ops : StoreOps σ) (lookup : String → Option String)
    (fsys : String → Option FileContent) (st : σ) (root fname : String) :
    Except PyError (σ × Bool) :=
  match (if endsWithSfx fname ".zip" then processZipfile lookup fsys (root ++ "/" ++ fname)
         else if endsWithSfx fname ".gz" then processGzfile lookup fsys (root ++ "/" ++ fname)
         else .ok none) with
  | .error err => .error err
  | .ok (some rep) => .ok (ops.save_new_report st rep, true)
  | .ok none => .ok (st, false)

/-- The inner `for fname in files` loop of `parse_reports_in_directory`
(lines 146-153), threading the store state and the `n` / `n_new`
counters.  Errors raised by `parse_report` are not caught. -/
def parseFiles {σ : Type} (ops : StoreOps σ) (lookup : String → Option String)
    (fsys : String → Option FileContent) (root : String) :
    List String → σ → Nat → Nat → Except PyError (σ × Nat × Nat)
  | [], st, n, nNew => .ok (st, n, nNew)
  | fname :: rest, st, n, nNew =>
      if ops.report_already_exists st fname then
        parseFiles ops lookup fsys root rest st (n + 1) nNew
      else
        match parse_report ops lookup fsys st root fname with
        | .error err => .error err
        | .ok (st2, isNew) =>
            parseFiles ops lookup fsys root rest st2 (n + 1)
              (if isNew then nNew + 1 else nNew)

/-- Source `parse_reports_in_directory` (lines 141-154): `os.walk` is modelled
as the list of `(root, files)` pairs it yields. -/
def parse_reports_in_directory {σ : Type} (ops : StoreOps σ)
    (lookup : String → Option String) (fsys : String → Option FileContent) :
    List (String × List String) → σ → Nat → Nat → Except PyError (σ × Nat × Nat)
  | [], st, n, nNew => .ok (st, n, nNew)
  | (root, files) :: more, st, n, nNew =>
      match parseFiles ops lookup fsys root files st n nNew with
      | .error err => .error err
      | .ok (st2, n2, nNew2) =>
          parse_reports_in_directory ops lookup fsys more st2 n2 nNew2

/-! ### Reverse-DNS resolver -/

/-- Outcome of `socket.gethostbyaddr`: a hostname, or the `socket.herror`
failure the source catches. -/
inductive NetResult where
  | found : String → NetResult
  | herror : NetResult

/-- The resolver's process state: the `_rdns_records` dict plus a count
of network lookups performed (to make "performs no new network
operation" statable). -/
structure RdnsState where
  records : List (String × String)
  netOps : Nat
  deriving DecidableEq, Repr

/-- Dict lookup in `_rdns_records`. -/
def cacheLookup : List (String × String) → String → Option String
  | [], _ => none
  | (k, v) :: rest, ip => if k = ip then some v else cacheLookup rest ip

/-- Source `_lookup_ip` (lines 81-93): on a cache miss, perform the lookup; a
success is cached and returned, a `socket.herror` failure returns `None`
**without writing to the cache** (the `except` branch never assigns
`_rdns_records[ip_address]`).  A timeout or any non-`herror` exception is
not caught by the source at all and is outside this model. -/
def lookupIp (net : String → NetResult) (st : RdnsState) (ip : String) :
    Option String × RdnsState :=
  match cacheLookup st.records ip with
  | none =>
      match net ip with
      | .found h => (some h, ⟨(ip, h) :: st.records, st.netOps + 1⟩)
      | .herror => (none, ⟨st.records, st.netOps + 1⟩)
  | some h => (some h, st)

/-! ### Cache persistence (`save_rdns_records` / `load_rdns_records`) -/

/-- Serialized tokens: the pickle byte stream is modelled as an
token list that can be parsed back. -/
inductive PTok where
  | num : Nat → PTok
  | str : String → PTok
  deriving DecidableEq, Repr

/-- Python `pickle.dump` of the rDNS dict: length, then alternating key/value
strings. -/
def pickleDumpCache (m : List (String × String)) : List PTok :=
  .num m.length :: m.foldr (fun p acc => .str p.1 :: .str p.2 :: acc) []

/-- Read `n` key/value pairs from a token stream. -/
def readPairs : Nat → List PTok → Option (List (String × String) × List PTok)
  | 0, rest => some ([], rest)
  | n + 1, .str k :: .str v :: rest =>
      match readPairs n rest with
      | some (l, r) => some ((k, v) :: l, r)
      | none => none
  | _ + 1, _ => none

/-- Python `pickle.load`: parse one serialized dict from the stream. -/
def pickleLoadCache (toks : List PTok) : Option (List (String × String)) :=
  match toks with
  | .num n :: rest =>
      match readPairs n rest with
      | some (l, _) => some l
      | none => none
  | _ => none

/-- The file system seen by cache persistence: path → serialized bytes. -/
def FileSys : Type := String → Option (List PTok)

/-- A file system with no files. -/
def emptyFileSys : FileSys := fun _ => none

/-- Source `save_rdns_records` (lines 157-163): `os.path.join(dir, name)`,
create the directory if needed (not observable in this model), then
overwrite the file with the pickled mapping. -/
def save_rdns_records (fsys : FileSys) (rdns_records : List (String × String))
    (rdns_filename rdns_directory : String) : FileSys :=
  let filepath := rdns_directory ++ "/" ++ rdns_filename
  fun p => if p = filepath then some (pickleDumpCache rdns_records) else fsys p

/-- Source `load_rdns_records` (lines 166-174): if the file exists unpickle it,
otherwise return an empty dict (not an error). -/
def load_rdns_records (fsys : FileSys) (rdns_filename rdns_directory : String) :
    Except PyError (List (String × String)) :=
  let filepath := rdns_directory ++ "/" ++ rdns_filename
  match fsys filepath with
  | some content =>
      match pickleLoadCache content with
      | some m => .ok m
      | none => .error .unpicklingError
  | none => .ok []

/-! ### Concrete inputs used by witnesses and counterexamples -/

/-- A resolver that finds nothing (models `_lookup_ip` returning `None`). -/
def lookupNone : String → Option String := fun _ => none

/-- A network on which every reverse lookup raises `socket.herror`. -/
def netFail : String → NetResult := fun _ => .herror

/-- The empty resolver state. -/
def rdns0 : RdnsState := ⟨[], 0⟩

/-- A record element with `policy_evaluated.dkim` and `.spf` both absent
(used for C5). -/
def recordXmlC5 : XmlElem :=
  .mk "record" "" (XmlList.ofList
    [ .mk "row" "" (XmlList.ofList
        [ .mk "source_ip" "192.0.2.1" .nil,
          .mk "count" "5" .nil,
          .mk "policy_evaluated" "" (XmlList.ofList
            [ .mk "disposition" "none" .nil ]) ]),
      .mk "identifiers" "" (XmlList.ofList [ .mk "header_from" "example.com" .nil ]),
      .mk "auth_results" "" .nil ])

/-- The Record decoded from `recordXmlC5`. -/
def recC5 : DMARCRecord :=
  ⟨"192.0.2.1", none, "none", none, none, some false, some "example.com", none, 5, [], []⟩

/-- A record element with `policy_evaluated.spf` absent (used for C6). -/
def recordXmlC6 : XmlElem :=
  .mk "record" "" (XmlList.ofList
    [ .mk "row" "" (XmlList.ofList
        [ .mk "source_ip" "192.0.2.6" .nil,
          .mk "count" "2" .nil,
          .mk "policy_evaluated" "" (XmlList.ofList
            [ .mk "disposition" "quarantine" .nil,
              .mk "dkim" "pass" .nil ]) ]),
      .mk "identifiers" "" .nil,
      .mk "auth_results" "" .nil ])

/-- The `row` element of `recordXmlC6`. -/
def rowC6 : XmlElem :=
  .mk "row" "" (XmlList.ofList
    [ .mk "source_ip" "192.0.2.6" .nil,
      .mk "count" "2" .nil,
      .mk "policy_evaluated" "" (XmlList.ofList
        [ .mk "disposition" "quarantine" .nil,
          .mk "dkim" "pass" .nil ]) ])

/-- The `policy_evaluated` element of `recordXmlC6`. -/
def peC6 : XmlElem :=
  .mk "policy_evaluated" "" (XmlList.ofList
    [ .mk "disposition" "quarantine" .nil,
      .mk "dkim" "pass" .nil ])

/-- The Record decoded from `recordXmlC6`. -/
def recC6 : DMARCRecord :=
  ⟨"192.0.2.6", none, "quarantine", none, none, some true, none, none, 2, [], []⟩

/-- A record element whose `policy_evaluated.spf` carries the invalid
value `"softfail"` (used for C7). -/
def recordXmlC7 : XmlElem :=
  .mk "record" "" (XmlList.ofList
    [ .mk "row" "" (XmlList.ofList
        [ .mk "source_ip" "192.0.2.7" .nil,
          .mk "count" "1" .nil,
          .mk "policy_evaluated" "" (XmlList.ofList
            [ .mk "disposition" "reject" .nil,
              .mk "spf" "softfail" .nil ]) ]),
      .mk "identifiers" "" .nil,
      .mk "auth_results" "" .nil ])

/-- The `row` element of `recordXmlC7`. -/
def rowC7 : XmlElem :=
  .mk "row" "" (XmlList.ofList
    [ .mk "source_ip" "192.0.2.7" .nil,
      .mk "count" "1" .nil,
      .mk "policy_evaluated" "" (XmlList.ofList
        [ .mk "disposition" "reject" .nil,
          .mk "spf" "softfail" .nil ]) ])

/-- The `policy_evaluated` element of `recordXmlC7`. -/
def peC7 : XmlElem :=
  .mk "policy_evaluated" "" (XmlList.ofList
    [ .mk "disposition" "reject" .nil,
      .mk "spf" "softfail" .nil ])

/-- The `source_ip` element of `recordXmlC7`. -/
def sipC7 : XmlElem := .mk "source_ip" "192.0.2.7" .nil

/-- The `disposition` element of `recordXmlC7`. -/
def dispC7 : XmlElem := .mk "disposition" "reject" .nil

/-- A full document whose single record carries `count = "0"`
(used for C9). -/
def docC9 : XmlElem :=
  .mk "feedback" "" (XmlList.ofList
    [ .mk "report_metadata" "" (XmlList.ofList
        [ .mk "report_id" "r9" .nil,
          .mk "org_name" "org9" .nil,
          .mk "date_range" "" (XmlList.ofList
            [ .mk "begin" "0" .nil, .mk "end" "1" .nil ]) ]),
      .mk "record" "" (XmlList.ofList
        [ .mk "row" "" (XmlList.ofList
            [ .mk "source_ip" "192.0.2.9" .nil,
              .mk "count" "0" .nil,
              .mk "policy_evaluated" "" (XmlList.ofList
                [ .mk "disposition" "none" .nil,
                  .mk "dkim" "fail" .nil,
                  .mk "spf" "fail" .nil ]) ]),
          .mk "identifiers" "" .nil,
          .mk "auth_results" "" .nil ]) ])

/-- A record element with `count = "0"` and everything required present
(used for the C9 witness). -/
def recordXmlC9 : XmlElem :=
  .mk "record" "" (XmlList.ofList
    [ .mk "row" "" (XmlList.ofList
        [ .mk "source_ip" "192.0.2.9" .nil,
          .mk "count" "0" .nil,
          .mk "policy_evaluated" "" (XmlList.ofList
            [ .mk "disposition" "none" .nil,
              .mk "dkim" "fail" .nil,
              .mk "spf" "fail" .nil ]) ]),
      .mk "identifiers" "" .nil,
      .mk "auth_results" "" .nil ])

/-- The Record decoded from `recordXmlC9`. -/
def recC9 : DMARCRecord :=
  ⟨"192.0.2.9", none, "none", none, some false, some false, none, none, 0, [], []⟩

/-- A minimal well-formed document with no records (used for C8). -/
def docC8 : XmlElem :=
  .mk "feedback" "" (XmlList.ofList
    [ .mk "report_metadata" "" (XmlList.ofList
        [ .mk "report_id" "r8" .nil,
          .mk "org_name" "org8" .nil,
          .mk "date_range" "" (XmlList.ofList
            [ .mk "begin" "0" .nil, .mk "end" "1" .nil ]) ]) ])

/-- A file system holding one gzip archive under the tricky name
`b.x.gzml.gz` (used for C8). -/
def fsysC8 : String → Option FileContent :=
  fun p => if p = "b.x.gzml.gz" then some (.gzF docC8) else none

/-- The report decoded from `docC8` under the filename `b.x.gzml.gz`. -/
def repC8 : DMARCReport := ⟨"r8", "b.x.gzml.gz", "org8", 0, 1, []⟩

/-- A document missing `report_metadata`: decoding raises a schema
violation (used for C3). -/
def docBadC3 : XmlElem := .mk "feedback" "" .nil

/-- A well-formed document (used for C3). -/
def docGoodC3 : XmlElem :=
  .mk "feedback" "" (XmlList.ofList
    [ .mk "report_metadata" "" (XmlList.ofList
        [ .mk "report_id" "r3" .nil,
          .mk "org_name" "org3" .nil,
          .mk "date_range" "" (XmlList.ofList
            [ .mk "begin" "0" .nil, .mk "end" "1" .nil ]) ]) ])

/-- A directory with a malformed report before a well-formed one
(used for C3). -/
def fsysC3 : String → Option FileContent :=
  fun p =>
    if p = "./reports/bad.xml.gz" then some (.gzF docBadC3)
    else if p = "./reports/good.xml.gz" then some (.gzF docGoodC3)
    else none

/-- The `os.walk` result for the C3 directory. -/
def walkC3 : List (String × List String) := [("./reports", ["bad.xml.gz", "good.xml.gz"])]

/-- A concrete store: the list of saved reports, with existence checked
by source filename. -/
def listStore : StoreOps (List DMARCReport) :=
  ⟨fun st f => st.any (fun rep => rep.filename == f), fun st rep => rep :: st⟩

/-- The report decoded from `docGoodC3`. -/
def repGoodC3 : DMARCReport := ⟨"r3", "good.xml.gz", "org3", 0, 1, []⟩

/-- A minimal document for the C10 witness. -/
def docC10 : XmlElem :=
  .mk "feedback" "" (XmlList.ofList
    [ .mk "report_metadata" "" (XmlList.ofList
        [ .mk "report_id" "r10" .nil,
          .mk "org_name" "org10" .nil,
          .mk "date_range" "" (XmlList.ofList
            [ .mk "begin" "0" .nil, .mk "end" "1" .nil ]) ]) ])

/-- Two directories each holding a zip called `rep.zip` (used for C10). -/
def fsysC10a : String → Option FileContent :=
  fun p => if p = "dir1/rep.zip" then some (.zipF [("x.xml", docC10)]) else none

/-- Second directory for C10. -/
def fsysC10b : String → Option FileContent :=
  fun p => if p = "dir2/rep.zip" then some (.zipF [("x.xml", docC10)]) else none

/-- The report decoded from `docC10` (identical dedup key from either
directory). -/
def repC10 : DMARCReport := ⟨"r10", "rep.zip", "org10", 0, 1, []⟩

/-! ### Claim C1: the DKIM auth-result filter -/

/-- Unfolding step for `mkDkimSigs` on a cons cell whose `result` and
`domain` lookups succeed and whose tail already decoded. -/
theorem mkDkimSigs_cons_ok (e : XmlElem) (es : List XmlElem) (r d : XmlElem)
    (rest : List DkimSignature)
    (hr : find? "result" e = some r) (hd : find? "domain" e = some d)
    (hrest : mkDkimSigs es = .ok rest) :
    mkDkimSigs (e :: es) =
      if ¬(r.text = "none" ∨ r.text = "neutral") ∧ d.text ≠ "not.evaluated"
      then .ok (⟨r.text, d.text, (find? "selector" e).map XmlElem.text,
                 (find? "human_result" e).map XmlElem.text⟩ :: rest)
      else .ok rest := by
  rw [mkDkimSigs, hr, hd, hrest]
  rfl

/-- A DKIM entry with result `"none"` but an ordinary domain: the claim
predicts it is retained (the two exclusion conditions do not both hold),
the code drops it. -/
def dkimEntryNoneRealDomain : XmlElem :=
  .mk "dkim" "" (XmlList.ofList [.mk "result" "none" .nil, .mk "domain" "example.com" .nil])

/-- C1 counterexample: the entry `(result := "none", domain :=
"example.com")` does **not** satisfy "result ∈ {none, neutral} AND domain
= not.evaluated", yet `mkDkimSigs` excludes it from the signature list —
the filter drops on either condition, not only on both. -/
theorem dkim_filter_claim_false :
    ¬((("none" : String) = "none" ∨ ("none" : String) = "neutral") ∧
        ("example.com" : String) = "not.evaluated") ∧
    mkDkimSigs [dkimEntryNoneRealDomain] = .ok [] := by
  constructor
  · decide
  · rfl

/-- C1 (amended): a DKIM auth-results entry is excluded from the
signature list exactly when its result is `"none"` or `"neutral"` **or**
its domain equals `"not.evaluated"`; an entry is retained only when
neither condition holds. -/
theorem dkim_filter_or_condition (e : XmlElem) (es : List XmlElem) (r d : XmlElem)
    (hr : find? "result" e = some r) (hd : find? "domain" e = some d)
    (out : List DkimSignature) (h : mkDkimSigs (e :: es) = .ok out) :
    (((r.text = "none" ∨ r.text = "neutral") ∨ d.text = "not.evaluated") →
        mkDkimSigs es = .ok out) ∧
    (¬((r.text = "none" ∨ r.text = "neutral") ∨ d.text = "not.evaluated") →
        ∃ rest, mkDkimSigs es = .ok rest ∧
          out = ⟨r.text, d.text, (find? "selector" e).map XmlElem.text,
                 (find? "human_result" e).map XmlElem.text⟩ :: rest) := by
  cases hrest : mkDkimSigs es with
  | error err =>
      rw [mkDkimSigs, hr, hd, hrest] at h
      exact Except.noConfusion h
  | ok rest =>
    rw [mkDkimSigs_cons_ok e es r d rest hr hd hrest] at h
    constructor
    · intro hc
      have hneg : ¬(¬(r.text = "none" ∨ r.text = "neutral") ∧ d.text ≠ "not.evaluated") := by
        tauto
      rw [if_neg hneg] at h
      exact h
    · intro hc
      have hpos : ¬(r.text = "none" ∨ r.text = "neutral") ∧ d.text ≠ "not.evaluated" := by
        tauto
      rw [if_pos hpos] at h
      exact ⟨rest, rfl, by simpa using h.symm⟩

/-- A DKIM entry that passes the filter. -/
def dkimEntryKept : XmlElem :=
  .mk "dkim" "" (XmlList.ofList [.mk "result" "pass" .nil, .mk "domain" "example.org" .nil,
                 .mk "selector" "sel1" .nil])

/-- Witness for C1 (amended) at a concrete retained entry. -/
theorem dkim_filter_or_condition_witness :
    ((((XmlElem.mk "result" "pass" .nil).text = "none" ∨
        (XmlElem.mk "result" "pass" .nil).text = "neutral") ∨
        (XmlElem.mk "domain" "example.org" .nil).text = "not.evaluated") →
      mkDkimSigs [] = .ok [⟨"pass", "example.org", some "sel1", none⟩]) ∧
    (¬(((XmlElem.mk "result" "pass" .nil).text = "none" ∨
        (XmlElem.mk "result" "pass" .nil).text = "neutral") ∨
        (XmlElem.mk "domain" "example.org" .nil).text = "not.evaluated") →
      ∃ rest, mkDkimSigs [] = .ok rest ∧
        ([⟨"pass", "example.org", some "sel1", none⟩] : List DkimSignature) =
          ⟨(XmlElem.mk "result" "pass" .nil).text,
           (XmlElem.mk "domain" "example.org" .nil).text,
           (find? "selector" dkimEntryKept).map XmlElem.text,
           (find? "human_result" dkimEntryKept).map XmlElem.text⟩ :: rest) :=
  dkim_filter_or_condition dkimEntryKept []
    (.mk "result" "pass" .nil) (.mk "domain" "example.org" .nil) rfl rfl
    [⟨"pass", "example.org", some "sel1", none⟩] rfl

/-! ### Helper lemmas about the record decoder -/

/-- A successful `attrOf` means the tag was found. -/
theorem attrOf_eq_ok {o : Option XmlElem} {e : XmlElem} (h : attrOf o = .ok e) :
    o = some e := by
  cases o with
  | none => exact Except.noConfusion h
  | some a => simpa [attrOf] using h

/-- The helper `attrOf` only ever fails with `AttributeError`. -/
theorem attrOf_eq_error {o : Option XmlElem} {err : PyError} (h : attrOf o = .error err) :
    err = .attributeError := by
  cases o with
  | none =>
      have h1 : PyError.attributeError = err := by simpa [attrOf] using h
      exact h1.symm
  | some a => simp [attrOf] at h

/-- An absent `policy_evaluated.spf` leaves `spf_pass` as `None`. -/
theorem spfPassOf_none {pe : XmlElem} (h : find? "spf" pe = none) :
    spfPassOf pe = .ok none := by
  simp [spfPassOf, h]

/-- An absent `policy_evaluated.dkim` forces `dkim_pass` to `False`. -/
theorem dkimPassOf_none {pe : XmlElem} (h : find? "dkim" pe = none) :
    dkimPassOf pe = .ok (some false) := by
  simp [dkimPassOf, h]

/-- A present `spf` tag with invalid text makes `spfPassOf` assert. -/
theorem spfPassOf_bad {pe s : XmlElem} (hs : find? "spf" pe = some s)
    (hbad : ¬(s.text = "pass" ∨ s.text = "fail")) :
    spfPassOf pe = .error .assertError := by
  simp [spfPassOf, hs, hbad]

/-- A present `dkim` tag with invalid text makes `dkimPassOf` assert. -/
theorem dkimPassOf_bad {pe dk : XmlElem} (hdk : find? "dkim" pe = some dk)
    (hbad : ¬(dk.text = "pass" ∨ dk.text = "fail")) :
    dkimPassOf pe = .error .assertError := by
  simp [dkimPassOf, hdk, hbad]

/-- A present valid `spf` tag yields `spf_pass = text == "pass"`. -/
theorem spfPassOf_good {pe s : XmlElem} (hs : find? "spf" pe = some s)
    (hgood : s.text = "pass" ∨ s.text = "fail") :
    spfPassOf pe = .ok (some (s.text == "pass")) := by
  simp [spfPassOf, hs, hgood]

/-- A present valid `dkim` tag yields `dkim_pass = text == "pass"`. -/
theorem dkimPassOf_good {pe dk : XmlElem} (hdk : find? "dkim" pe = some dk)
    (hgood : dk.text = "pass" ∨ dk.text = "fail") :
    dkimPassOf pe = .ok (some (dk.text == "pass")) := by
  simp [dkimPassOf, hdk, hgood]

/-- Whenever `dkimPassOf` succeeds the resulting flag is defined. -/
theorem dkimPassOf_ok_isSome {pe : XmlElem} {o : Option Bool} (h : dkimPassOf pe = .ok o) :
    o.isSome = true := by
  cases hfd : find? "dkim" pe with
  | none =>
      rw [dkimPassOf_none hfd] at h
      injection h with h1
      subst h1
      rfl
  | some d =>
      by_cases hv : d.text = "pass" ∨ d.text = "fail"
      · rw [dkimPassOf_good hfd hv] at h
        injection h with h1
        subst h1
        rfl
      · rw [dkimPassOf_bad hfd hv] at h
        exact Except.noConfusion h

/-- Function `spfPassOf` fails only by assertion, and only on a present `spf` tag
with text other than `pass` / `fail`. -/
theorem spfPassOf_error_inv {pe : XmlElem} {err : PyError} (h : spfPassOf pe = .error err) :
    err = .assertError ∧
    ∃ s, find? "spf" pe = some s ∧ ¬(s.text = "pass" ∨ s.text = "fail") := by
  cases hfd : find? "spf" pe with
  | none =>
      rw [spfPassOf_none hfd] at h
      exact Except.noConfusion h
  | some s =>
      by_cases hv : s.text = "pass" ∨ s.text = "fail"
      · rw [spfPassOf_good hfd hv] at h
        exact Except.noConfusion h
      · rw [spfPassOf_bad hfd hv] at h
        injection h with h1
        exact ⟨h1.symm, s, rfl, hv⟩

/-- Function `dkimPassOf` fails only by assertion, and only on a present `dkim`
tag with text other than `pass` / `fail`. -/
theorem dkimPassOf_error_inv {pe : XmlElem} {err : PyError} (h : dkimPassOf pe = .error err) :
    err = .assertError ∧
    ∃ dk, find? "dkim" pe = some dk ∧ ¬(dk.text = "pass" ∨ dk.text = "fail") := by
  cases hfd : find? "dkim" pe with
  | none =>
      rw [dkimPassOf_none hfd] at h
      exact Except.noConfusion h
  | some dk =>
      by_cases hv : dk.text = "pass" ∨ dk.text = "fail"
      · rw [dkimPassOf_good hfd hv] at h
        exact Except.noConfusion h
      · rw [dkimPassOf_bad hfd hv] at h
        injection h with h1
        exact ⟨h1.symm, dk, rfl, hv⟩

/-- Function `mkSpfResult` only ever fails with `AttributeError`. -/
theorem mkSpfResult_error {e : XmlElem} {err : PyError} (h : mkSpfResult e = .error err) :
    err = .attributeError := by
  unfold mkSpfResult at h
  cases h1 : attrOf (find? "result" e) with
  | error e1 =>
      rw [h1] at h
      injection h with h2
      exact h2 ▸ attrOf_eq_error h1
  | ok r =>
      rw [h1] at h
      cases h2 : attrOf (find? "domain" e) with
      | error e2 =>
          rw [h2] at h
          injection h with h3
          exact h3 ▸ attrOf_eq_error h2
      | ok d => rw [h2] at h; exact Except.noConfusion h

/-- The SPF auth-result loop only ever fails with `AttributeError`. -/
theorem mkSpfResults_error {es : List XmlElem} :
    ∀ {err : PyError}, mkSpfResults es = .error err → err = .attributeError := by
  induction es with
  | nil => intro err h; exact Except.noConfusion h
  | cons e es ih =>
      intro err h
      unfold mkSpfResults at h
      cases h1 : mkSpfResult e with
      | error e1 =>
          rw [h1] at h
          injection h with h2
          exact h2 ▸ mkSpfResult_error h1
      | ok r =>
          rw [h1] at h
          cases h3 : mkSpfResults es with
          | error e3 =>
              rw [h3] at h
              injection h with h4
              exact h4 ▸ ih h3
          | ok rest => rw [h3] at h; exact Except.noConfusion h

/-- The DKIM signature loop only ever fails with `AttributeError`. -/
theorem mkDkimSigs_error {es : List XmlElem} :
    ∀ {err : PyError}, mkDkimSigs es = .error err → err = .attributeError := by
  induction es with
  | nil => intro err h; exact Except.noConfusion h
  | cons e es ih =>
      intro err h
      cases h1 : find? "result" e with
      | none =>
          rw [mkDkimSigs, h1] at h
          injection h with h2
          exact h2.symm
      | some r =>
          cases h2 : find? "domain" e with
          | none =>
              rw [mkDkimSigs, h1, h2] at h
              injection h with h3
              exact h3.symm
          | some d =>
              cases h3 : mkDkimSigs es with
              | error e3 =>
                  rw [mkDkimSigs, h1, h2, h3] at h
                  injection h with h4
                  exact h4 ▸ ih h3
              | ok rest =>
                  rw [mkDkimSigs_cons_ok e es r d rest h1 h2 h3] at h
                  split at h <;> exact Except.noConfusion h

/-- Inversion of a successful `mkRecord`: every required lookup
succeeded and every field of the record comes from the corresponding
part of the XML. -/
theorem mkRecord_ok_inv (lookup : String → Option String) (xml : XmlElem) (r : DMARCRecord)
    (h : mkRecord lookup xml = .ok r) :
    ∃ sip row pe disp idents cnt ar,
      find? "source_ip" xml = some sip ∧
      find? "row" xml = some row ∧
      find? "policy_evaluated" row = some pe ∧
      find? "disposition" pe = some disp ∧
      spfPassOf pe = .ok r.spf_pass ∧
      dkimPassOf pe = .ok r.dkim_pass ∧
      find? "identifiers" xml = some idents ∧
      find? "count" xml = some cnt ∧
      pyInt? cnt.text = some r.count ∧
      find? "auth_results" xml = some ar ∧
      mkSpfResults (findAllE "spf" ar) = .ok r.spf_results ∧
      mkDkimSigs (findAllE "dkim" ar) = .ok r.dkim_signatures ∧
      r.ip = sip.text ∧
      r.host = lookup sip.text ∧
      r.disposition = disp.text ∧
      r.reason = reasonOf pe ∧
      r.header_from = (find? "header_from" idents).map XmlElem.text ∧
      r.envelope_from = (find? "envelope_from" idents).map XmlElem.text := by
  unfold mkRecord at h
  split at h
  next err heq => exact Except.noConfusion h
  next sip hsip =>
  split at h
  next err heq => exact Except.noConfusion h
  next row hrow =>
  split at h
  next err heq => exact Except.noConfusion h
  next pe hpe =>
  split at h
  next err heq => exact Except.noConfusion h
  next disp hdisp =>
  split at h
  next err heq => exact Except.noConfusion h
  next spfP hspf =>
  split at h
  next err heq => exact Except.noConfusion h
  next dkimP hdkim =>
  split at h
  next err heq => exact Except.noConfusion h
  next idents hid =>
  split at h
  next err heq => exact Except.noConfusion h
  next cnt hcnt =>
  split at h
  next heq => exact Except.noConfusion h
  next count hint =>
  split at h
  next err heq => exact Except.noConfusion h
  next ar har =>
  split at h
  next err heq => exact Except.noConfusion h
  next spfRes hsr =>
  split at h
  next err heq => exact Except.noConfusion h
  next dkimSigs hds =>
  injection h with h2
  subst h2
  exact ⟨sip, row, pe, disp, idents, cnt, ar,
    attrOf_eq_ok hsip, attrOf_eq_ok hrow, attrOf_eq_ok hpe, attrOf_eq_ok hdisp,
    hspf, hdkim, attrOf_eq_ok hid, attrOf_eq_ok hcnt, hint, attrOf_eq_ok har,
    hsr, hds, rfl, rfl, rfl, rfl, rfl, rfl⟩

/-- Function `mkRecord` raises an assertion error only from the `spf` / `dkim`
policy-value checks (every other failure is an `AttributeError` or
`ValueError`). -/
theorem mkRecord_assertError_inv (lookup : String → Option String) (xml : XmlElem)
    (h : mkRecord lookup xml = .error .assertError) :
    ∃ row pe, find? "row" xml = some row ∧ find? "policy_evaluated" row = some pe ∧
      ((∃ s, find? "spf" pe = some s ∧ ¬(s.text = "pass" ∨ s.text = "fail")) ∨
       (∃ dk, find? "dkim" pe = some dk ∧ ¬(dk.text = "pass" ∨ dk.text = "fail"))) := by
  unfold mkRecord at h
  split at h
  next err heq =>
    injection h with h1
    exact absurd (h1.symm.trans (attrOf_eq_error heq)) (by decide)
  next sip hsip =>
  split at h
  next err heq =>
    injection h with h1
    exact absurd (h1.symm.trans (attrOf_eq_error heq)) (by decide)
  next row hrow =>
  split at h
  next err heq =>
    injection h with h1
    exact absurd (h1.symm.trans (attrOf_eq_error heq)) (by decide)
  next pe hpe =>
  split at h
  next err heq =>
    injection h with h1
    exact absurd (h1.symm.trans (attrOf_eq_error heq)) (by decide)
  next disp hdisp =>
  split at h
  next err heq =>
    obtain ⟨_, s, hs, hbad⟩ := spfPassOf_error_inv heq
    exact ⟨row, pe, attrOf_eq_ok hrow, attrOf_eq_ok hpe, .inl ⟨s, hs, hbad⟩⟩
  next spfP hspf =>
  split at h
  next err heq =>
    obtain ⟨_, dk, hdk, hbad⟩ := dkimPassOf_error_inv heq
    exact ⟨row, pe, attrOf_eq_ok hrow, attrOf_eq_ok hpe, .inr ⟨dk, hdk, hbad⟩⟩
  next dkimP hdkim =>
  split at h
  next err heq =>
    injection h with h1
    exact absurd (h1.symm.trans (attrOf_eq_error heq)) (by decide)
  next idents hid =>
  split at h
  next err heq =>
    injection h with h1
    exact absurd (h1.symm.trans (attrOf_eq_error heq)) (by decide)
  next cnt hcnt =>
  split at h
  next heq =>
    injection h with h1
    exact absurd h1.symm (by decide)
  next count hint =>
  split at h
  next err heq =>
    injection h with h1
    exact absurd (h1.symm.trans (attrOf_eq_error heq)) (by decide)
  next ar har =>
  split at h
  next err heq =>
    injection h with h1
    exact absurd (h1.symm.trans (mkSpfResults_error heq)) (by decide)
  next spfRes hsr =>
  split at h
  next err heq =>
    injection h with h1
    exact absurd (h1.symm.trans (mkDkimSigs_error heq)) (by decide)
  next dkimSigs hds =>
  exact Except.noConfusion h

/-! ### Claim C5: absent DKIM policy result is forced to `False` -/

/-- C5: every successfully constructed Record has a defined `dkim_pass`,
and when the record's `policy_evaluated` has no `dkim` child the flag is
`some false` (never left unset). -/
theorem dkim_pass_defined_and_absent_false (lookup : String → Option String)
    (xml : XmlElem) (r : DMARCRecord) (h : mkRecord lookup xml = .ok r) :
    r.dkim_pass.isSome = true ∧
    (∀ row pe, find? "row" xml = some row → find? "policy_evaluated" row = some pe →
      find? "dkim" pe = none → r.dkim_pass = some false) := by
  obtain ⟨sip, row, pe, disp, idents, cnt, ar, hsip, hrow, hpe, hdisp, hspf, hdkim,
    hid, hcnt, hint, har, hsr, hds, _, _, _, _, _, _⟩ := mkRecord_ok_inv lookup xml r h
  refine ⟨dkimPassOf_ok_isSome hdkim, ?_⟩
  intro row2 pe2 hrow2 hpe2 hnone
  rw [hrow] at hrow2
  obtain rfl : row = row2 := Option.some.inj hrow2
  rw [hpe] at hpe2
  obtain rfl : pe = pe2 := Option.some.inj hpe2
  rw [dkimPassOf_none hnone] at hdkim
  injection hdkim with h1
  exact h1.symm

/-- Witness for C5 at a concrete record with no `dkim` policy result. -/
theorem dkim_pass_defined_and_absent_false_witness :
    recC5.dkim_pass.isSome = true ∧
    (∀ row pe, find? "row" recordXmlC5 = some row →
      find? "policy_evaluated" row = some pe →
      find? "dkim" pe = none → recC5.dkim_pass = some false) :=
  dkim_pass_defined_and_absent_false lookupNone recordXmlC5 recC5 rfl

/-! ### Claim C6: absent SPF policy result stays undefined -/

/-- C6: when the record's `policy_evaluated` has no `spf` child, the
constructed Record's `spf_pass` is `none` (undefined), not `false`. -/
theorem spf_absent_undefined (lookup : String → Option String) (xml : XmlElem)
    (r : DMARCRecord) (h : mkRecord lookup xml = .ok r)
    (row pe : XmlElem) (hrow2 : find? "row" xml = some row)
    (hpe2 : find? "policy_evaluated" row = some pe)
    (hnone : find? "spf" pe = none) : r.spf_pass = none := by
  obtain ⟨sip, row1, pe1, disp, idents, cnt, ar, hsip, hrow, hpe, hdisp, hspf, hdkim,
    hid, hcnt, hint, har, hsr, hds, _, _, _, _, _, _⟩ := mkRecord_ok_inv lookup xml r h
  rw [hrow] at hrow2
  obtain rfl : row1 = row := Option.some.inj hrow2
  rw [hpe] at hpe2
  obtain rfl : pe1 = pe := Option.some.inj hpe2
  rw [spfPassOf_none hnone] at hspf
  injection hspf with h1
  exact h1.symm

/-- Witness for C6 at a concrete record with no `spf` policy result. -/
theorem spf_absent_undefined_witness : recC6.spf_pass = none :=
  spf_absent_undefined lookupNone recordXmlC6 recC6 rfl rowC6 peC6 rfl rfl rfl

/-! ### Claim C7: `spf` / `dkim` policy values must be `pass` or `fail` -/

/-- C7: with `source_ip`, `row`, `policy_evaluated` and `disposition`
present, record construction raises the assertion error exactly when a
present `policy_evaluated.spf` or `.dkim` has text other than `"pass"` /
`"fail"`; on success a present valid element sets the corresponding flag
to `text == "pass"`. -/
theorem policy_eval_pass_fail_assert (lookup : String → Option String) (xml : XmlElem)
    (sip row pe disp : XmlElem)
    (hsip : find? "source_ip" xml = some sip)
    (hrow : find? "row" xml = some row)
    (hpe : find? "policy_evaluated" row = some pe)
    (hdisp : find? "disposition" pe = some disp) :
    (mkRecord lookup xml = .error .assertError ↔
      (∃ s, find? "spf" pe = some s ∧ ¬(s.text = "pass" ∨ s.text = "fail")) ∨
      (∃ dk, find? "dkim" pe = some dk ∧ ¬(dk.text = "pass" ∨ dk.text = "fail"))) ∧
    (∀ r s, mkRecord lookup xml = .ok r → find? "spf" pe = some s →
        (s.text = "pass" ∨ s.text = "fail") ∧ r.spf_pass = some (s.text == "pass")) ∧
    (∀ r dk, mkRecord lookup xml = .ok r → find? "dkim" pe = some dk →
        (dk.text = "pass" ∨ dk.text = "fail") ∧ r.dkim_pass = some (dk.text == "pass")) := by
  refine ⟨⟨?_, ?_⟩, ?_, ?_⟩
  · intro h
    obtain ⟨row1, pe1, hrow1, hpe1, hdisj⟩ := mkRecord_assertError_inv lookup xml h
    rw [hrow] at hrow1
    obtain rfl : row = row1 := Option.some.inj hrow1
    rw [hpe] at hpe1
    obtain rfl : pe = pe1 := Option.some.inj hpe1
    exact hdisj
  · intro hdisj
    rcases hdisj with ⟨s, hs, hbad⟩ | ⟨dk, hdk, hbad⟩
    · simp [mkRecord, hsip, hrow, hpe, hdisp, attrOf, spfPassOf_bad hs hbad]
    · cases hsp : spfPassOf pe with
      | error e1 =>
          obtain ⟨he1, _⟩ := spfPassOf_error_inv hsp
          subst he1
          simp [mkRecord, hsip, hrow, hpe, hdisp, attrOf, hsp]
      | ok o =>
          simp [mkRecord, hsip, hrow, hpe, hdisp, attrOf, hsp, dkimPassOf_bad hdk hbad]
  · intro r s hok hs
    obtain ⟨sip1, row1, pe1, disp1, idents, cnt, ar, hsip1, hrow1, hpe1, hdisp1, hspf, hdkim,
      hid, hcnt, hint, har, hsr, hds, _, _, _, _, _, _⟩ := mkRecord_ok_inv lookup xml r hok
    rw [hrow] at hrow1
    obtain rfl : row = row1 := Option.some.inj hrow1
    rw [hpe] at hpe1
    obtain rfl : pe = pe1 := Option.some.inj hpe1
    by_cases hv : s.text = "pass" ∨ s.text = "fail"
    · rw [spfPassOf_good hs hv] at hspf
      injection hspf with h1
      exact ⟨hv, h1.symm⟩
    · rw [spfPassOf_bad hs hv] at hspf
      exact Except.noConfusion hspf
  · intro r dk hok hdk
    obtain ⟨sip1, row1, pe1, disp1, idents, cnt, ar, hsip1, hrow1, hpe1, hdisp1, hspf, hdkim,
      hid, hcnt, hint, har, hsr, hds, _, _, _, _, _, _⟩ := mkRecord_ok_inv lookup xml r hok
    rw [hrow] at hrow1
    obtain rfl : row = row1 := Option.some.inj hrow1
    rw [hpe] at hpe1
    obtain rfl : pe = pe1 := Option.some.inj hpe1
    by_cases hv : dk.text = "pass" ∨ dk.text = "fail"
    · rw [dkimPassOf_good hdk hv] at hdkim
      injection hdkim with h1
      exact ⟨hv, h1.symm⟩
    · rw [dkimPassOf_bad hdk hv] at hdkim
      exact Except.noConfusion hdkim

/-- Witness for C7 at a concrete record whose `spf` value is the invalid
`"softfail"`. -/
theorem policy_eval_pass_fail_assert_witness :
    (mkRecord lookupNone recordXmlC7 = .error .assertError ↔
      (∃ s, find? "spf" peC7 = some s ∧ ¬(s.text = "pass" ∨ s.text = "fail")) ∨
      (∃ dk, find? "dkim" peC7 = some dk ∧ ¬(dk.text = "pass" ∨ dk.text = "fail"))) ∧
    (∀ r s, mkRecord lookupNone recordXmlC7 = .ok r → find? "spf" peC7 = some s →
        (s.text = "pass" ∨ s.text = "fail") ∧ r.spf_pass = some (s.text == "pass")) ∧
    (∀ r dk, mkRecord lookupNone recordXmlC7 = .ok r → find? "dkim" peC7 = some dk →
        (dk.text = "pass" ∨ dk.text = "fail") ∧ r.dkim_pass = some (dk.text == "pass")) :=
  policy_eval_pass_fail_assert lookupNone recordXmlC7 sipC7 rowC7 peC7 dispC7
    rfl rfl rfl rfl

/-! ### Claim C9: the message count is not checked against 1 -/

/-- C9 counterexample: the decoder accepts a record whose `count` text is
`"0"` and produces a Record with count 0, so "count ≥ 1" does not hold
for every produced Record. -/
theorem record_count_zero_accepted :
    processXml lookupNone docC9 "c9.xml.gz" =
      .ok ⟨"r9", "c9.xml.gz", "org9", 0, 1, [recC9]⟩ ∧
    recC9.count < 1 :=
  ⟨rfl, by decide⟩

/-- C9 (amended): every produced Record's count is exactly the integer
`int(...)` parses from the required `count` element's text; the decoder
enforces no lower bound, so 0 or negative counts are accepted. -/
theorem record_count_parsed_unchecked (lookup : String → Option String) (xml : XmlElem)
    (r : DMARCRecord) (h : mkRecord lookup xml = .ok r) :
    ∃ cnt, find? "count" xml = some cnt ∧ pyInt? cnt.text = some r.count := by
  obtain ⟨sip, row, pe, disp, idents, cnt, ar, hsip, hrow, hpe, hdisp, hspf, hdkim,
    hid, hcnt, hint, har, hsr, hds, _, _, _, _, _, _⟩ := mkRecord_ok_inv lookup xml r h
  exact ⟨cnt, hcnt, hint⟩

/-- Witness for C9 (amended) at the concrete `count = "0"` record. -/
theorem record_count_parsed_unchecked_witness :
    ∃ cnt, find? "count" recordXmlC9 = some cnt ∧ pyInt? cnt.text = some recC9.count :=
  record_count_parsed_unchecked lookupNone recordXmlC9 recC9 rfl

/-! ### Claim C8: gzip name handling -/

/-- C8 counterexample: `"b.x.gzml.gz"` ends in `".gz"` and stripping only
the `".gz"` suffix leaves `"b.x.gzml"`, which does not end in `".xml"` —
so the claim says extraction returns none.  But the source's
`replace(".gz", "")` also deletes the interior `".gz"`, producing
`"b.xml"`, and extraction succeeds. -/
theorem gz_suffix_claim_false :
    endsWithSfx "b.x.gzml.gz" ".gz" = true ∧
    endsWithSfx (stripSuffixGz "b.x.gzml.gz") ".xml" = false ∧
    processGzfile lookupNone fsysC8 "b.x.gzml.gz" = .ok (some repC8) :=
  ⟨rfl, rfl, rfl⟩

/-- C8 (amended): for every filename, gzip extraction yields none exactly
when the archive filename with **every** occurrence of `".gz"` removed
does not end in `".xml"`; when it does end in `".xml"` and the file is a
readable gzip, the decompressed document is decoded. -/
theorem gz_extraction_replace_all (lookup : String → Option String)
    (fsys : String → Option FileContent) (fname : String) :
    (processGzfile lookup fsys fname = .ok none ↔
      endsWithSfx (stripGzAllS (lastComponentS fname)) ".xml" = false) ∧
    (∀ doc, endsWithSfx (stripGzAllS (lastComponentS fname)) ".xml" = true →
      fsys fname = some (.gzF doc) →
      processGzfile lookup fsys fname =
        (match processXml lookup doc (lastComponentS fname) with
         | .error err => .error err
         | .ok rep => .ok (some rep))) := by
  have hval : processGzfile lookup fsys fname =
      (if endsWithSfx (stripGzAllS (lastComponentS fname)) ".xml" = true
       then (match fsys fname with
             | some (.gzF doc) =>
                 (match processXml lookup doc (lastComponentS fname) with
                  | .error err => .error err
                  | .ok rep => .ok (some rep))
             | _ => .error .archiveError)
       else .ok none) := rfl
  by_cases hb : endsWithSfx (stripGzAllS (lastComponentS fname)) ".xml" = true
  · rw [if_pos hb] at hval
    refine ⟨⟨?_, ?_⟩, ?_⟩
    · intro h
      exfalso
      rw [hval] at h
      cases hf : fsys fname with
      | none => rw [hf] at h; exact Except.noConfusion h
      | some fc =>
          rw [hf] at h
          cases fc with
          | zipF entries => exact Except.noConfusion h
          | corrupt => exact Except.noConfusion h
          | gzF doc =>
              have h2 : (match processXml lookup doc (lastComponentS fname) with
                         | Except.error err => (Except.error err : Except PyError (Option DMARCReport))
                         | Except.ok rep => Except.ok (some rep)) = Except.ok none := h
              cases hx : processXml lookup doc (lastComponentS fname) with
              | error err => rw [hx] at h2; exact Except.noConfusion h2
              | ok rep =>
                  rw [hx] at h2
                  injection h2 with h1
                  exact Option.noConfusion h1
    · intro hfalse
      rw [hb] at hfalse
      exact absurd hfalse (by decide)
    · intro doc hcond hf
      rw [hval, hf]
  · rw [if_neg hb] at hval
    have hbf : endsWithSfx (stripGzAllS (lastComponentS fname)) ".xml" = false :=
      Bool.eq_false_iff.mpr hb
    exact ⟨⟨fun _ => hbf, fun _ => hval⟩, fun doc hcond _ => absurd hcond hb⟩

/-- Witness for C8 (amended) at the concrete tricky gzip name. -/
theorem gz_extraction_replace_all_witness :
    (processGzfile lookupNone fsysC8 "b.x.gzml.gz" = .ok none ↔
      endsWithSfx (stripGzAllS (lastComponentS "b.x.gzml.gz")) ".xml" = false) ∧
    (∀ doc, endsWithSfx (stripGzAllS (lastComponentS "b.x.gzml.gz")) ".xml" = true →
      fsysC8 "b.x.gzml.gz" = some (.gzF doc) →
      processGzfile lookupNone fsysC8 "b.x.gzml.gz" =
        (match processXml lookupNone doc (lastComponentS "b.x.gzml.gz") with
         | .error err => .error err
         | .ok rep => .ok (some rep))) :=
  gz_extraction_replace_all lookupNone fsysC8 "b.x.gzml.gz"

/-! ### Claim C10: the dedup key is the bare file name -/

/-- List `takeWhile` consumes a block of satisfying elements and stops at a
failing sentinel. -/
theorem takeWhile_append_sentinel (p : Char → Bool) (xs ys : List Char) (c : Char)
    (hxs : ∀ x ∈ xs, p x = true) (hc : p c = false) :
    (xs ++ c :: ys).takeWhile p = xs := by
  induction xs with
  | nil => simp [List.takeWhile_cons, hc]
  | cons x xs ih =>
      have hx : p x = true := hxs x (List.mem_cons_self x xs)
      simp [List.takeWhile_cons, hx,
        ih (fun y hy => hxs y (List.mem_cons_of_mem x hy))]

/-- The last slash-separated component of `a ++ "/" ++ b` is `b` when `b`
contains no slash. -/
theorem lastComp_append (a b : List Char) (hb : '/' ∉ b) :
    lastComp (a ++ '/' :: b) = b := by
  unfold lastComp
  have hmem : ∀ x ∈ b.reverse, (x != '/') = true := by
    intro x hx
    have : x ∈ b := List.mem_reverse.mp hx
    exact bne_iff_ne.mpr (fun hxe => hb (hxe ▸ this))
  have h1 : (a ++ '/' :: b).reverse = b.reverse ++ '/' :: a.reverse := by
    simp [List.reverse_append]
  rw [h1, takeWhile_append_sentinel _ _ _ _ hmem (by decide), List.reverse_reverse]

/-- String-level version of `lastComp_append`. -/
theorem lastComponentS_append (root fname : String) (h : '/' ∉ fname.data) :
    lastComponentS (root ++ "/" ++ fname) = fname := by
  obtain ⟨l⟩ := fname
  show String.mk (lastComp (root ++ "/" ++ String.mk l).data) = String.mk l
  have hdata : (root ++ "/" ++ String.mk l).data = root.data ++ '/' :: l := by
    rw [String.data_append, String.data_append, List.append_assoc]
    rfl
  rw [hdata, lastComp_append root.data l h]

/-- A successfully decoded report carries the filename it was given. -/
theorem processXml_ok_filename (lookup : String → Option String) (doc : XmlElem)
    (fn : String) (rep : DMARCReport) (h : processXml lookup doc fn = .ok rep) :
    rep.filename = fn := by
  unfold processXml at h
  split at h
  next err heq => exact Except.noConfusion h
  next md hmd =>
  split at h
  next err heq => exact Except.noConfusion h
  next rid hrid =>
  split at h
  next err heq => exact Except.noConfusion h
  next org horg =>
  split at h
  next err heq => exact Except.noConfusion h
  next dr hdr =>
  split at h
  next err heq => exact Except.noConfusion h
  next b hbb =>
  split at h
  next err heq => exact Except.noConfusion h
  next en hen =>
  split at h
  next err heq => exact Except.noConfusion h
  next bi hbi =>
  split at h
  next err heq => exact Except.noConfusion h
  next ei hei =>
  split at h
  next err heq => exact Except.noConfusion h
  next recs hrecs =>
  injection h with h2
  subst h2
  rfl

/-- Every report produced from a zip entry carries the archive name. -/
theorem firstXmlEntry_ok_filename (lookup : String → Option String) (an : String) :
    ∀ {entries : List (String × XmlElem)} {rep : DMARCReport},
      firstXmlEntry lookup an entries = .ok (some rep) → rep.filename = an := by
  intro entries
  induction entries with
  | nil =>
      intro rep h
      injection h with h1
      exact Option.noConfusion h1
  | cons ent rest ih =>
      intro rep h
      obtain ⟨subname, doc⟩ := ent
      rw [firstXmlEntry] at h
      split at h
      · cases hx : processXml lookup doc an with
        | error err => rw [hx] at h; exact Except.noConfusion h
        | ok rep2 =>
            rw [hx] at h
            injection h with h1
            injection h1 with h2
            exact h2 ▸ processXml_ok_filename lookup doc an rep2 hx
      · exact ih h

/-- Source `_process_zipfile` keys its report by the last path component. -/
theorem processZipfile_ok_filename (lookup : String → Option String)
    (fsys : String → Option FileContent) (fname : String) (rep : DMARCReport)
    (h : processZipfile lookup fsys fname = .ok (some rep)) :
    rep.filename = lastComponentS fname := by
  unfold processZipfile at h
  cases hf : fsys fname with
  | none => rw [hf] at h; exact Except.noConfusion h
  | some fc =>
      rw [hf] at h
      cases fc with
      | zipF entries => exact firstXmlEntry_ok_filename lookup (lastComponentS fname) h
      | gzF doc => exact Except.noConfusion h
      | corrupt => exact Except.noConfusion h

/-- Source `_process_gzfile` keys its report by the last path component. -/
theorem processGzfile_ok_filename (lookup : String → Option String)
    (fsys : String → Option FileContent) (fname : String) (rep : DMARCReport)
    (h : processGzfile lookup fsys fname = .ok (some rep)) :
    rep.filename = lastComponentS fname := by
  have hval : processGzfile lookup fsys fname =
      (if endsWithSfx (stripGzAllS (lastComponentS fname)) ".xml" = true
       then (match fsys fname with
             | some (.gzF doc) =>
                 (match processXml lookup doc (lastComponentS fname) with
                  | .error err => .error err
                  | .ok rep => .ok (some rep))
             | _ => .error .archiveError)
       else .ok none) := rfl
  rw [hval] at h
  by_cases hb : endsWithSfx (stripGzAllS (lastComponentS fname)) ".xml" = true
  · rw [if_pos hb] at h
    cases hf : fsys fname with
    | none => rw [hf] at h; exact Except.noConfusion h
    | some fc =>
        rw [hf] at h
        cases fc with
        | zipF entries => exact Except.noConfusion h
        | corrupt => exact Except.noConfusion h
        | gzF doc =>
            have h3 : (match processXml lookup doc (lastComponentS fname) with
                       | Except.error err => (Except.error err : Except PyError (Option DMARCReport))
                       | Except.ok rep => Except.ok (some rep)) = Except.ok (some rep) := h
            cases hx : processXml lookup doc (lastComponentS fname) with
            | error err => rw [hx] at h3; exact Except.noConfusion h3
            | ok rep2 =>
                rw [hx] at h3
                injection h3 with h1
                injection h1 with h2
                exact h2 ▸ processXml_ok_filename lookup doc (lastComponentS fname) rep2 hx
  · rw [if_neg hb] at h
    injection h with h1
    exact Option.noConfusion h1

/-- C10: a decoded report's dedup key (its `filename`) is the bare last
path component, the driver's existence check is made on the bare
`os.walk` file name, and two equally named files in different
subdirectories therefore share one dedup key. -/
theorem filename_dedup_key (root1 root2 fname : String) (h : '/' ∉ fname.data) :
    lastComponentS (root1 ++ "/" ++ fname) = fname ∧
    (∀ (lookup : String → Option String) fsys1 fsys2 rep1 rep2,
        processZipfile lookup fsys1 (root1 ++ "/" ++ fname) = .ok (some rep1) →
        processZipfile lookup fsys2 (root2 ++ "/" ++ fname) = .ok (some rep2) →
        rep1.filename = fname ∧ rep2.filename = fname) ∧
    (∀ (lookup : String → Option String) fsys1 fsys2 rep1 rep2,
        processGzfile lookup fsys1 (root1 ++ "/" ++ fname) = .ok (some rep1) →
        processGzfile lookup fsys2 (root2 ++ "/" ++ fname) = .ok (some rep2) →
        rep1.filename = fname ∧ rep2.filename = fname) ∧
    (∀ (σ : Type) (ops : StoreOps σ) (lookup : String → Option String) fsys rest st n nNew,
        ops.report_already_exists st fname = true →
        parseFiles ops lookup fsys root1 (fname :: rest) st n nNew =
          parseFiles ops lookup fsys root1 rest st (n + 1) nNew) := by
  refine ⟨lastComponentS_append root1 fname h, ?_, ?_, ?_⟩
  · intro lookup fsys1 fsys2 rep1 rep2 h1 h2
    rw [processZipfile_ok_filename lookup fsys1 _ rep1 h1,
        processZipfile_ok_filename lookup fsys2 _ rep2 h2,
        lastComponentS_append root1 fname h, lastComponentS_append root2 fname h]
    exact ⟨rfl, rfl⟩
  · intro lookup fsys1 fsys2 rep1 rep2 h1 h2
    rw [processGzfile_ok_filename lookup fsys1 _ rep1 h1,
        processGzfile_ok_filename lookup fsys2 _ rep2 h2,
        lastComponentS_append root1 fname h, lastComponentS_append root2 fname h]
    exact ⟨rfl, rfl⟩
  · intro σ ops lookup fsys rest st n nNew hex
    rw [parseFiles, if_pos hex]

/-- Witness for C10 with the same zip name under two directories. -/
theorem filename_dedup_key_witness :
    lastComponentS ("dir1" ++ "/" ++ "rep.zip") = "rep.zip" ∧
    (∀ (lookup : String → Option String) fsys1 fsys2 rep1 rep2,
        processZipfile lookup fsys1 ("dir1" ++ "/" ++ "rep.zip") = .ok (some rep1) →
        processZipfile lookup fsys2 ("dir2" ++ "/" ++ "rep.zip") = .ok (some rep2) →
        rep1.filename = "rep.zip" ∧ rep2.filename = "rep.zip") ∧
    (∀ (lookup : String → Option String) fsys1 fsys2 rep1 rep2,
        processGzfile lookup fsys1 ("dir1" ++ "/" ++ "rep.zip") = .ok (some rep1) →
        processGzfile lookup fsys2 ("dir2" ++ "/" ++ "rep.zip") = .ok (some rep2) →
        rep1.filename = "rep.zip" ∧ rep2.filename = "rep.zip") ∧
    (∀ (σ : Type) (ops : StoreOps σ) (lookup : String → Option String) fsys rest st n nNew,
        ops.report_already_exists st "rep.zip" = true →
        parseFiles ops lookup fsys "dir1" ("rep.zip" :: rest) st n nNew =
          parseFiles ops lookup fsys "dir1" rest st (n + 1) nNew) :=
  filename_dedup_key "dir1" "dir2" "rep.zip" (by decide)

/-! ### Claim C3: error containment in the ingestion driver -/

/-- C3 counterexample: the driver hits the malformed `bad.xml.gz` first
and the schema-violation error propagates out of
`parse_reports_in_directory` — the run aborts, although the remaining
`good.xml.gz` on its own parses and saves fine. -/
theorem ingest_error_aborts_counterexample :
    parse_reports_in_directory listStore lookupNone fsysC3 walkC3 [] 0 0 =
      .error .attributeError ∧
    parse_report listStore lookupNone fsysC3 [] "./reports" "good.xml.gz" =
      .ok ([repGoodC3], true) :=
  ⟨rfl, rfl⟩

/-- C3 (amended): the driver catches nothing — a schema-violation or
archive error raised while decoding one file propagates out of
`parse_reports_in_directory` with that very error, aborting the whole
ingestion run before any later file is visited. -/
theorem ingest_error_aborts_run (σ : Type) (ops : StoreOps σ)
    (lookup : String → Option String) (fsys : String → Option FileContent)
    (root fname : String) (rest : List String) (more : List (String × List String))
    (st : σ) (n nNew : Nat) (err : PyError)
    (hnew : ops.report_already_exists st fname = false)
    (herr : parse_report ops lookup fsys st root fname = .error err) :
    parse_reports_in_directory ops lookup fsys ((root, fname :: rest) :: more) st n nNew
      = .error err := by
  have h1 : parseFiles ops lookup fsys root (fname :: rest) st n nNew = .error err := by
    rw [parseFiles, if_neg (by simp [hnew]), herr]
  rw [parse_reports_in_directory, h1]

/-- Witness for C3 (amended) on the concrete bad file. -/
theorem ingest_error_aborts_run_witness :
    parse_reports_in_directory listStore lookupNone fsysC3
      [("./reports", ["bad.xml.gz", "good.xml.gz"])] [] 0 0 = .error .attributeError :=
  ingest_error_aborts_run (List DMARCReport) listStore lookupNone fsysC3
    "./reports" "bad.xml.gz" ["good.xml.gz"] [] [] 0 0 .attributeError rfl rfl

/-! ### Claim C2: failed reverse lookups are not cached -/

/-- C2 counterexample: after a failed first resolve of `192.0.2.1` the
cache is still empty, and a second resolve performs another network
lookup (`netOps` rises from 1 to 2) instead of returning a cached
"unresolved" value. -/
theorem lookup_failure_not_cached :
    lookupIp netFail rdns0 "192.0.2.1" = (none, ⟨[], 1⟩) ∧
    lookupIp netFail ⟨[], 1⟩ "192.0.2.1" = (none, ⟨[], 2⟩) :=
  ⟨rfl, rfl⟩

/-- C2 (amended): on a cache miss whose lookup fails with
`socket.herror`, the resolver returns absent **without caching
anything**, so a second resolve of the same IP performs a new network
operation (timeouts and other errors are not even caught and would
propagate). -/
theorem lookup_failure_returns_absent_uncached (net : String → NetResult)
    (st : RdnsState) (ip : String)
    (hmiss : cacheLookup st.records ip = none) (hfail : net ip = .herror) :
    lookupIp net st ip = (none, ⟨st.records, st.netOps + 1⟩) ∧
    (lookupIp net (lookupIp net st ip).2 ip).2.netOps = st.netOps + 2 := by
  have h1 : lookupIp net st ip = (none, ⟨st.records, st.netOps + 1⟩) := by
    simp [lookupIp, hmiss, hfail]
  refine ⟨h1, ?_⟩
  rw [h1]
  have h2 : lookupIp net ⟨st.records, st.netOps + 1⟩ ip =
      (none, ⟨st.records, st.netOps + 1 + 1⟩) := by
    simp [lookupIp, hmiss, hfail]
  rw [h2]

/-- Witness for C2 (amended) at a concrete IP and failing network. -/
theorem lookup_failure_returns_absent_uncached_witness :
    lookupIp netFail rdns0 "192.0.2.8" = (none, ⟨[], 1⟩) ∧
    (lookupIp netFail (lookupIp netFail rdns0 "192.0.2.8").2 "192.0.2.8").2.netOps = 2 :=
  lookup_failure_returns_absent_uncached netFail rdns0 "192.0.2.8" rfl rfl

/-! ### Claim C4: resolver-cache persistence round-trips -/

/-- Reading back exactly the pairs that were serialized. -/
theorem readPairs_foldr (m : List (String × String)) (tail : List PTok) :
    readPairs m.length (m.foldr (fun p acc => PTok.str p.1 :: PTok.str p.2 :: acc) tail)
      = some (m, tail) := by
  induction m with
  | nil => rfl
  | cons p m ih =>
      obtain ⟨k, v⟩ := p
      simp [readPairs, ih]

/-- Running `pickle.load` after `pickle.dump` restores the mapping exactly. -/
theorem pickleLoad_dump (m : List (String × String)) :
    pickleLoadCache (pickleDumpCache m) = some m := by
  simp [pickleDumpCache, pickleLoadCache, readPairs_foldr]

/-- C4: saving the resolver cache and loading it back returns a mapping
equal to the original, and loading from a path where no file exists
returns the empty cache without error. -/
theorem rdns_cache_roundtrip (fsys : FileSys) (rdns_records : List (String × String))
    (fn dir : String) :
    load_rdns_records (save_rdns_records fsys rdns_records fn dir) fn dir =
      .ok rdns_records ∧
    load_rdns_records emptyFileSys fn dir = .ok [] := by
  constructor
  · simp [load_rdns_records, save_rdns_records, pickleLoad_dump]
  · rfl

end DmarcMon
